import Mathlib

/-!
Verification of the TraumaChat real-time conversation engine.

This file gives a shallow embedding of the server modules
`shared/constants.js`, `server/services/conversation.js`,
`server/services/matchmaker.js`, `server/services/timer.js`,
`server/services/points.js` and the socket event handlers of
`server/socket/handlers/index.js`, and proves properties of the
extension-vote resolver, the matchmaking queue, the room timer
manager, the rating award logic and the disconnect grace handler.

Modelling conventions:
* SQLite tables become lists of record rows inside a `Db` structure;
  `SELECT ... WHERE id = ?` with `.get` becomes `List.find?`,
  `UPDATE ... WHERE id = ?` becomes a `List.map` that rewrites the
  matching rows, and `INSERT` appends a row at the end (rowid order).
* JavaScript `Map`s (pending photos, pending ratings, user sockets,
  active timers, disconnect timers) become association lists with
  `lookupEntry` / `setEntry` / `eraseEntry`.
* `setTimeout` handles become natural-number handles drawn from a
  counter; `clearTimeout h` records `h` in a `cancelled` list, and a
  scheduled callback can still fire exactly when its handle was never
  passed to `clearTimeout` (`canFire`).
* Socket emissions become an `Event` list in each handler result.
  Rows and tables not read or written by the handlers under
  verification (messages, photo_exchanges, profile columns) are
  omitted from the embedding.
-/

namespace TraumaChat

/-- Conversation lifecycle statuses (`CONVERSATION_STATUS` in
`shared/constants.js`; the string values `'active'` and so on become
constructors). -/
inductive Status
  | active
  | extension_pending
  | photo_exchange
  | extended
  | friends_forever
  | closed
deriving DecidableEq, Repr

/-- The three extension votes a client may submit (`'extend'`,
`'leave'`, `'friends_forever'`). -/
inductive Vote
  | extend
  | leave
  | friends_forever
deriving DecidableEq, Repr

/-- A row of the `conversations` table.  `room_id` is the opaque room
token (a UUID string in the source, modelled as a number). -/
structure Conversation where
  id : Nat
  user1_id : Nat
  user2_id : Nat
  room_id : Nat
  status : Status
  extensions_count : Nat
  is_friends_forever : Bool
  current_timer_end : Option Nat
deriving DecidableEq, Repr

/-- A row of the `extension_votes` table. -/
structure VoteRow where
  conversation_id : Nat
  user_id : Nat
  round : Nat
  vote : Vote
deriving DecidableEq, Repr

/-- A row of the `ratings` table. -/
structure RatingRow where
  conversation_id : Nat
  rater_id : Nat
  rated_id : Nat
  score : Nat
deriving DecidableEq, Repr

/-- A row of the `points_log` audit table. -/
structure PointsLogEntry where
  user_id : Nat
  conversation_id : Nat
  event_type : String
  points : Nat
  description : String
deriving DecidableEq, Repr

/-- The columns of a `users` row that the points service touches. -/
structure UserRow where
  id : Nat
  total_points : Nat
deriving DecidableEq, Repr

/-- The persistent store, restricted to the tables the verified
handlers read or write. -/
structure Db where
  users : List UserRow
  conversations : List Conversation
  extension_votes : List VoteRow
  ratings : List RatingRow
  points_log : List PointsLogEntry
deriving DecidableEq, Repr

/-- `TIMER_SECONDS` from `shared/constants.js` (default deployment
value; the `DEV_TIMER_SECONDS` override is configuration). -/
def TIMER_SECONDS : Nat := 180

/-- `TIMER_WARNING_SECONDS` from `shared/constants.js`. -/
def TIMER_WARNING_SECONDS : Nat := 30

namespace POINTS

/-- `POINTS.PARTICIPATION` from `shared/constants.js`. -/
def PARTICIPATION : Nat := 10

/-- `POINTS.EXTENSION` from `shared/constants.js`. -/
def EXTENSION : Nat := 25

/-- `POINTS.RATING_MULTIPLIER` from `shared/constants.js`. -/
def RATING_MULTIPLIER : Nat := 5

/-- `POINTS.FRIENDS_FOREVER` from `shared/constants.js`. -/
def FRIENDS_FOREVER : Nat := 100

/-- `POINTS.STREAK_BONUS` from `shared/constants.js`. -/
def STREAK_BONUS : Nat := 10

/-- `POINTS.STREAK_THRESHOLD` from `shared/constants.js`. -/
def STREAK_THRESHOLD : Nat := 3

end POINTS

/-- Association-list lookup, modelling `Map.prototype.get`. -/
def lookupEntry {α : Type} (m : List (Nat × α)) (k : Nat) : Option α :=
  (m.find? (fun p => p.1 == k)).map (fun p => p.2)

/-- Association-list write, modelling `Map.prototype.set`: replaces the
value for an existing key in place, otherwise appends a new entry. -/
def setEntry {α : Type} (m : List (Nat × α)) (k : Nat) (v : α) : List (Nat × α) :=
  if m.any (fun p => p.1 == k) then
    m.map (fun p => if p.1 == k then (k, v) else p)
  else
    m ++ [(k, v)]

/-- Association-list delete, modelling `Map.prototype.delete`. -/
def eraseEntry {α : Type} (m : List (Nat × α)) (k : Nat) : List (Nat × α) :=
  m.filter (fun p => p.1 != k)

/-- `getConversation` from `server/services/conversation.js`:
`SELECT * FROM conversations WHERE id = ?`. -/
def getConversation (db : Db) (conversationId : Nat) : Option Conversation :=
  db.conversations.find? (fun c => c.id == conversationId)

/-- `getPartnerUserId` from `server/services/conversation.js`:
`conversation.user1_id === userId ? conversation.user2_id : conversation.user1_id`. -/
def getPartnerUserId (conversation : Conversation) (userId : Nat) : Nat :=
  if conversation.user1_id = userId then conversation.user2_id else conversation.user1_id

/-- `UPDATE conversations SET ... WHERE id = ?`: rewrites the rows whose
`id` matches. -/
def updateConversation (db : Db) (conversationId : Nat)
    (f : Conversation → Conversation) : Db :=
  { db with conversations :=
      db.conversations.map (fun c => if c.id = conversationId then f c else c) }

/-- `closeConversation` from `server/services/conversation.js`. -/
def closeConversation (db : Db) (conversationId : Nat) : Db :=
  updateConversation db conversationId (fun c => { c with status := Status.closed })

/-- `setFriendsForever` from `server/services/conversation.js`. -/
def setFriendsForever (db : Db) (conversationId : Nat) : Db :=
  updateConversation db conversationId
    (fun c => { c with status := Status.friends_forever, is_friends_forever := true })

/-- `extendConversation` from `server/services/conversation.js`:
increments `extensions_count`, sets status `photo_exchange`, and
re-reads the updated row. -/
def extendConversation (db : Db) (conversationId : Nat) : Db × Option Conversation :=
  let db1 := updateConversation db conversationId
    (fun c => { c with extensions_count := c.extensions_count + 1,
                       status := Status.photo_exchange })
  (db1, getConversation db1 conversationId)

/-- `setActive` from `server/services/conversation.js`. -/
def setActive (db : Db) (conversationId : Nat) : Db :=
  updateConversation db conversationId (fun c => { c with status := Status.active })

/-- `awardPoints` from `server/services/points.js`: appends a
`points_log` row and adds the amount to the user's `total_points`. -/
def awardPoints (db : Db) (userId conversationId : Nat) (eventType : String)
    (points : Nat) (description : String) : Db :=
  { db with
    points_log := db.points_log ++ [⟨userId, conversationId, eventType, points, description⟩],
    users := db.users.map (fun u =>
      if u.id = userId then { u with total_points := u.total_points + points } else u) }

/-- `awardExtension` from `server/services/points.js`: base extension
points, plus the streak bonus once `extensionsCount` reaches
`STREAK_THRESHOLD`. -/
def awardExtension (db : Db) (userId conversationId extensionsCount : Nat) : Db :=
  let pts := if extensionsCount ≥ POINTS.STREAK_THRESHOLD then
      POINTS.EXTENSION + POINTS.STREAK_BONUS
    else POINTS.EXTENSION
  let desc := if extensionsCount ≥ POINTS.STREAK_THRESHOLD then
      "Extended conversation (streak bonus! " ++ toString extensionsCount ++ " extensions)"
    else "Extended conversation"
  awardPoints db userId conversationId "extension" pts desc

/-- `awardRating` from `server/services/points.js`: the rated user
earns `score * RATING_MULTIPLIER`. -/
def awardRating (db : Db) (userId conversationId score : Nat) : Db :=
  awardPoints db userId conversationId "rating" (score * POINTS.RATING_MULTIPLIER)
    ("Rated " ++ toString score ++ " stars")

/-- `awardFriendsForever` from `server/services/points.js`. -/
def awardFriendsForever (db : Db) (userId conversationId : Nat) : Db :=
  awardPoints db userId conversationId "friends_forever" POINTS.FRIENDS_FOREVER
    "Friends forever!"

/-- Socket emissions performed by the handlers under verification
(see `EVENTS` in `shared/constants.js` for the wire names). -/
inductive Event
  | timerStart (roomId durationSeconds endTime : Nat)
  | timerWarning (roomId secondsLeft : Nat)
  | timerExpired (conversationId : Nat)
  | extensionPrompt (conversationId : Nat)
  | voteReceivedWaiting
  | extensionResult (result : String) (conversationId : Nat)
  | conversationClosed (conversationId : Nat) (reason : String)
  | friendsForeverConfirmed (conversationId : Nat)
  | photoExchangeStart (conversationId : Nat)
  | photoReceivedWaiting
  | ratingReceived (ratedUserId score raterId : Nat)
  | partnerDisconnected (conversationId : Nat)
deriving DecidableEq, Repr

/-- A waiting user in the matchmaking queue
(`{ userId, socketId }` objects in `server/services/matchmaker.js`). -/
structure QueueEntry where
  userId : Nat
  socketId : Nat
deriving DecidableEq, Repr

/-- `removeFromQueue` from `server/services/matchmaker.js`:
`findIndex` + `splice(idx, 1)` removes the first matching entry and is
a no-op when the user is not queued. -/
def removeFromQueue (queue : List QueueEntry) (userId : Nat) : List QueueEntry :=
  queue.eraseP (fun q => q.userId == userId)

/-- `addToQueue` from `server/services/matchmaker.js`: removes any
stale entry for the user, then pushes a fresh entry at the back.
(The accompanying `userSockets.set` only updates the socket lookup
map and does not affect the queue.) -/
def addToQueue (queue : List QueueEntry) (userId socketId : Nat) : List QueueEntry :=
  removeFromQueue queue userId ++ [⟨userId, socketId⟩]

/-- `tryMatch` from `server/services/matchmaker.js`, restricted to its
queue behaviour: with fewer than two entries it returns `null` and
leaves the queue alone; otherwise it `shift`s the two longest-waiting
entries and returns them paired.  (The conversation row it inserts and
the random room UUID are orthogonal to the pairing order and are not
modelled here.) -/
def tryMatch : List QueueEntry → Option (QueueEntry × QueueEntry) × List QueueEntry
  | user1 :: user2 :: rest => (some (user1, user2), rest)
  | queue => (none, queue)

/-- Folds a sequence of `addToQueue` calls (one per entry, in order)
over a starting queue. -/
def enqueueAll (queue : List QueueEntry) (entries : List QueueEntry) : List QueueEntry :=
  entries.foldl (fun q e => addToQueue q e.userId e.socketId) queue

/-- The pair sequence produced by calling `tryMatch` repeatedly until
it returns `null` (each successful call consumes the two entries it
returns). -/
def drainPairs : List QueueEntry → List (QueueEntry × QueueEntry)
  | user1 :: user2 :: rest => (user1, user2) :: drainPairs rest
  | _ => []

/-- The entry of `activeTimers` for one room in
`server/services/timer.js`: the handles of the scheduled expiry and
warning callbacks. -/
structure TimerEntry where
  timeout : Nat
  warningTimeout : Nat
deriving DecidableEq, Repr

/-- The timer subsystem state: the `activeTimers` map plus a record of
which `setTimeout` handles have been passed to `clearTimeout`
(`cancelled`) and a counter producing fresh handles. -/
structure TimerSys where
  activeTimers : List (Nat × TimerEntry)
  cancelled : List Nat
  nextHandle : Nat
deriving DecidableEq, Repr

/-- A scheduled callback can still fire exactly when its handle was
never passed to `clearTimeout`. -/
def canFire (timers : TimerSys) (handle : Nat) : Prop :=
  handle ∉ timers.cancelled

/-- `clearTimer` from `server/services/timer.js`: if the room has an
entry, `clearTimeout` both callbacks and delete the entry; otherwise a
no-op. -/
def clearTimer (timers : TimerSys) (roomId : Nat) : TimerSys :=
  match lookupEntry timers.activeTimers roomId with
  | some existing =>
      { timers with
        cancelled := timers.cancelled ++ [existing.timeout, existing.warningTimeout],
        activeTimers := eraseEntry timers.activeTimers roomId }
  | none => timers

/-- Result of `startTimer`: updated store, updated timer state, and the
emitted events. -/
structure StartTimerResult where
  db : Db
  timers : TimerSys
  events : List Event
deriving DecidableEq, Repr

/-- `startTimer` from `server/services/timer.js`: first clears any
existing timer for the room, persists the absolute end time with
status `active`, emits `TIMER_START`, and schedules fresh warning and
expiry callbacks, storing their handles in `activeTimers`.
Durations are kept in seconds (the source multiplies by 1000 for
milliseconds). -/
def startTimer (db : Db) (timers : TimerSys) (roomId conversationId now : Nat) :
    StartTimerResult :=
  let timers1 := clearTimer timers roomId
  let endTime := now + TIMER_SECONDS
  let db1 := updateConversation db conversationId
    (fun c => { c with current_timer_end := some endTime, status := Status.active })
  let warningTimeout := timers1.nextHandle
  let timeout := timers1.nextHandle + 1
  let timers2 :=
    { timers1 with
      activeTimers := setEntry timers1.activeTimers roomId ⟨timeout, warningTimeout⟩,
      nextHandle := timers1.nextHandle + 2 }
  ⟨db1, timers2, [Event.timerStart roomId TIMER_SECONDS endTime]⟩

/-- `SELECT * FROM extension_votes WHERE conversation_id = ? AND round = ?`. -/
def votesForRound (rows : List VoteRow) (conversationId round : Nat) : List VoteRow :=
  rows.filter (fun r => r.conversation_id == conversationId && r.round == round)

/-- The vote stored in the `voteMap` object for one user: later rows
overwrite earlier ones (`votes.forEach(v => voteMap[v.user_id] = v.vote)`),
so the map holds the last vote of each user. -/
def lastVoteOf (rows : List VoteRow) (userId : Nat) : Option Vote :=
  ((rows.filter (fun r => r.user_id == userId)).getLast?).map (fun r => r.vote)

/-- The distinct voters of a vote-row list, first occurrence first. -/
def distinctVoters : List VoteRow → List Nat
  | [] => []
  | r :: rs => r.user_id :: (distinctVoters rs).filter (fun u => u != r.user_id)

/-- `Object.values(voteMap)`: one final vote per distinct user.
JavaScript enumerates the integer-like keys of `voteMap` in ascending
numeric order; the handler only applies the order-insensitive
predicates `includes` and `every` to this list, so first-occurrence
order is observationally equivalent. -/
def voteValues (rows : List VoteRow) : List Vote :=
  (distinctVoters rows).filterMap (fun u => lastVoteOf rows u)

/-- The combined state a socket handler reads and writes: the store,
the timer subsystem, the two in-memory tracking maps, and the events
it emitted. -/
structure HandlerResult where
  db : Db
  timers : TimerSys
  pendingPhotos : List (Nat × List Nat)
  pendingRatings : List (Nat × List (Nat × Nat))
  events : List Event
deriving DecidableEq, Repr

/-- The `EXTENSION_VOTE` handler from `server/socket/handlers/index.js`.
Steps, as in the source: drop the event unless the conversation exists
and is `extension_pending`; insert the vote row for round
`extensions_count + 1`; re-read all rows of that round; with fewer
than two rows acknowledge `vote-received:waiting`; otherwise
deduplicate by user and resolve (any `leave` closes; all
`friends_forever` makes the conversation permanent with bonuses;
otherwise extend into `photo_exchange` with extension awards and fresh
tracking sets).  Note the source performs no participant check on the
sender. -/
def extensionVoteHandler (db : Db) (timers : TimerSys)
    (pendingPhotos : List (Nat × List Nat))
    (pendingRatings : List (Nat × List (Nat × Nat)))
    (userId conversationId : Nat) (vote : Vote) : HandlerResult :=
  match getConversation db conversationId with
  | none => ⟨db, timers, pendingPhotos, pendingRatings, []⟩
  | some conv =>
    if conv.status ≠ Status.extension_pending then
      ⟨db, timers, pendingPhotos, pendingRatings, []⟩
    else
      let round := conv.extensions_count + 1
      let db1 : Db :=
        { db with extension_votes := db.extension_votes ++ [⟨conversationId, userId, round, vote⟩] }
      let votes := votesForRound db1.extension_votes conversationId round
      if votes.length < 2 then
        ⟨db1, timers, pendingPhotos, pendingRatings, [Event.voteReceivedWaiting]⟩
      else
        let values := voteValues votes
        if values.contains Vote.leave then
          ⟨closeConversation db1 conversationId,
           clearTimer timers conv.room_id,
           pendingPhotos, pendingRatings,
           [Event.extensionResult "closed" conversationId,
            Event.conversationClosed conversationId "Someone chose to leave"]⟩
        else if values.all (fun v => v == Vote.friends_forever) then
          let db2 := setFriendsForever db1 conversationId
          let db3 := awardFriendsForever db2 conv.user1_id conversationId
          let db4 := awardFriendsForever db3 conv.user2_id conversationId
          ⟨db4, clearTimer timers conv.room_id,
           pendingPhotos, pendingRatings,
           [Event.extensionResult "friends_forever" conversationId,
            Event.friendsForeverConfirmed conversationId]⟩
        else
          match extendConversation db1 conversationId with
          | (db2, some updated) =>
            let db3 := awardExtension db2 conv.user1_id conversationId updated.extensions_count
            let db4 := awardExtension db3 conv.user2_id conversationId updated.extensions_count
            ⟨db4, timers,
             setEntry pendingPhotos conversationId [],
             setEntry pendingRatings conversationId [],
             [Event.extensionResult "photo_exchange" conversationId,
              Event.photoExchangeStart conversationId]⟩
          | (db2, none) =>
            -- Unreachable: the row just updated in place is re-read by id.
            ⟨db2, timers, pendingPhotos, pendingRatings, []⟩

/-- The `RATE_PHOTO` handler from `server/socket/handlers/index.js`.
Steps, as in the source: drop the event if the conversation does not
exist; determine the rated user as the partner; insert the rating row;
award `score * RATING_MULTIPLIER` to the rated user; record the rating
in the pending-ratings map (lazily created); notify the rated user
directly if they have a live socket; and once two users have rated,
drop both tracking maps, set the conversation `active`, and start a
fresh room timer. -/
def ratePhotoHandler (db : Db) (timers : TimerSys)
    (pendingPhotos : List (Nat × List Nat))
    (pendingRatings : List (Nat × List (Nat × Nat)))
    (userSockets : List (Nat × Nat))
    (userId conversationId score now : Nat) : HandlerResult :=
  match getConversation db conversationId with
  | none => ⟨db, timers, pendingPhotos, pendingRatings, []⟩
  | some conv =>
    let ratedId := getPartnerUserId conv userId
    let db1 : Db := { db with ratings := db.ratings ++ [⟨conversationId, userId, ratedId, score⟩] }
    let db2 := awardRating db1 ratedId conversationId score
    let current := (lookupEntry pendingRatings conversationId).getD []
    let updatedRound := setEntry current userId score
    let pendingRatings1 := setEntry pendingRatings conversationId updatedRound
    let notifyEvents :=
      match lookupEntry userSockets ratedId with
      | some _ => [Event.ratingReceived ratedId score userId]
      | none => []
    if updatedRound.length ≥ 2 then
      let db3 := setActive db2 conversationId
      let started := startTimer db3 timers conv.room_id conversationId now
      ⟨started.db, started.timers,
       eraseEntry pendingPhotos conversationId,
       eraseEntry pendingRatings1 conversationId,
       notifyEvents ++ started.events⟩
    else
      ⟨db2, timers, pendingPhotos, pendingRatings1, notifyEvents⟩

/-- Result of the disconnect-grace expiry callback. -/
structure GraceResult where
  disconnectTimers : List (Nat × Nat)
  db : Db
  timers : TimerSys
  events : List Event
deriving DecidableEq, Repr

/-- The grace-period expiry callback scheduled by the `disconnect`
handler in `server/socket/handlers/index.js`: deletes its own handle
from `disconnectTimers`, re-fetches the conversation fresh, and only
when it still exists and is not already `closed` does it close it,
cancel the room timer, and emit the two notifications.  `convId` and
`roomId` are the id and room of the conversation captured when the
user disconnected. -/
def graceExpiryHandler (disconnectTimers : List (Nat × Nat)) (db : Db)
    (timers : TimerSys) (userId convId roomId : Nat) : GraceResult :=
  let disconnectTimers1 := eraseEntry disconnectTimers userId
  match getConversation db convId with
  | some freshConv =>
    if freshConv.status ≠ Status.closed then
      ⟨disconnectTimers1, closeConversation db convId, clearTimer timers roomId,
       [Event.partnerDisconnected convId,
        Event.conversationClosed convId "Partner disconnected"]⟩
    else
      ⟨disconnectTimers1, db, timers, []⟩
  | none => ⟨disconnectTimers1, db, timers, []⟩

/-! ### Helper lemmas -/

theorem find?_map_update (l : List Conversation) (cid : Nat)
    (f : Conversation → Conversation) (hf : ∀ c, (f c).id = c.id)
    (conv : Conversation) (h : l.find? (fun c => c.id == cid) = some conv) :
    (l.map (fun c => if c.id = cid then f c else c)).find? (fun c => c.id == cid) =
      some (f conv) := by
  induction l with
  | nil => simp at h
  | cons c0 rest ih =>
    by_cases hc : c0.id = cid
    · have hb : (c0.id == cid) = true := by simp [hc]
      have hb2 : ((f c0).id == cid) = true := by simp [hf c0, hc]
      simp only [List.find?_cons, hb] at h
      cases h
      simp only [List.map_cons, if_pos hc, List.find?_cons, hb2]
    · have hb : (c0.id == cid) = false := by simp [hc]
      simp only [List.find?_cons, hb] at h
      simp only [List.map_cons, if_neg hc, List.find?_cons, hb]
      exact ih h

theorem getConversation_update (db : Db) (cid : Nat)
    (f : Conversation → Conversation) (hf : ∀ c, (f c).id = c.id)
    (conv : Conversation) (h : getConversation db cid = some conv) :
    getConversation (updateConversation db cid f) cid = some (f conv) :=
  find?_map_update db.conversations cid f hf conv h

theorem updateConversation_users (db : Db) (cid : Nat) (f : Conversation → Conversation) :
    (updateConversation db cid f).users = db.users := rfl

theorem updateConversation_points_log (db : Db) (cid : Nat) (f : Conversation → Conversation) :
    (updateConversation db cid f).points_log = db.points_log := rfl

theorem awardPoints_conversations (db : Db) (u cid : Nat) (t : String) (p : Nat) (d : String) :
    (awardPoints db u cid t p d).conversations = db.conversations := rfl

theorem votesForRound_append (l1 l2 : List VoteRow) (cid round : Nat) :
    votesForRound (l1 ++ l2) cid round =
      votesForRound l1 cid round ++ votesForRound l2 cid round := by
  simp [votesForRound]

theorem votesForRound_singleton_self (cid round u : Nat) (v : Vote) :
    votesForRound [⟨cid, u, round, v⟩] cid round = [⟨cid, u, round, v⟩] := by
  simp [votesForRound]

theorem voteValues_pair (cid round a b : Nat) (v1 v2 : Vote) (hab : a ≠ b) :
    voteValues [⟨cid, a, round, v1⟩, ⟨cid, b, round, v2⟩] = [v1, v2] := by
  simp [voteValues, distinctVoters, lastVoteOf, hab, Ne.symm hab]

/-- Central characterization of the `EXTENSION_VOTE` handler: when a
conversation awaiting votes already holds exactly one vote row for the
current round (cast by `a`) and a second, distinct user `b` votes, the
handler resolves the round following the vote-resolution table of the
source. -/
theorem extensionVoteHandler_two_distinct
    (db : Db) (timers : TimerSys) (pp : List (Nat × List Nat))
    (pr : List (Nat × List (Nat × Nat)))
    (conversationId : Nat) (conv : Conversation) (a b : Nat) (v1 v2 : Vote)
    (hconv : getConversation db conversationId = some conv)
    (hstatus : conv.status = Status.extension_pending)
    (hprev : votesForRound db.extension_votes conversationId (conv.extensions_count + 1) =
      [⟨conversationId, a, conv.extensions_count + 1, v1⟩])
    (hab : a ≠ b) :
    extensionVoteHandler db timers pp pr b conversationId v2 =
      (let db1 : Db := { db with extension_votes :=
          db.extension_votes ++ [⟨conversationId, b, conv.extensions_count + 1, v2⟩] }
       if [v1, v2].contains Vote.leave then
        ⟨closeConversation db1 conversationId, clearTimer timers conv.room_id, pp, pr,
         [Event.extensionResult "closed" conversationId,
          Event.conversationClosed conversationId "Someone chose to leave"]⟩
       else if [v1, v2].all (fun v => v == Vote.friends_forever) then
        ⟨awardFriendsForever
           (awardFriendsForever (setFriendsForever db1 conversationId)
             conv.user1_id conversationId)
           conv.user2_id conversationId,
         clearTimer timers conv.room_id, pp, pr,
         [Event.extensionResult "friends_forever" conversationId,
          Event.friendsForeverConfirmed conversationId]⟩
       else
        ⟨awardExtension
           (awardExtension (extendConversation db1 conversationId).1
             conv.user1_id conversationId (conv.extensions_count + 1))
           conv.user2_id conversationId (conv.extensions_count + 1),
         timers, setEntry pp conversationId [], setEntry pr conversationId [],
         [Event.extensionResult "photo_exchange" conversationId,
          Event.photoExchangeStart conversationId]⟩) := by
  have hdb1 : getConversation
      { db with extension_votes :=
        db.extension_votes ++ [⟨conversationId, b, conv.extensions_count + 1, v2⟩] }
      conversationId = some conv := hconv
  have hvotes : votesForRound
      (db.extension_votes ++ [⟨conversationId, b, conv.extensions_count + 1, v2⟩])
      conversationId (conv.extensions_count + 1) =
      [⟨conversationId, a, conv.extensions_count + 1, v1⟩,
       ⟨conversationId, b, conv.extensions_count + 1, v2⟩] := by
    rw [votesForRound_append, hprev, votesForRound_singleton_self]
    rfl
  have hupd := getConversation_update
    { db with extension_votes :=
      db.extension_votes ++ [⟨conversationId, b, conv.extensions_count + 1, v2⟩] }
    conversationId
    (fun c => { c with extensions_count := c.extensions_count + 1,
                       status := Status.photo_exchange })
    (fun _ => rfl) conv hdb1
  simp only [extensionVoteHandler, hconv, hstatus, hvotes, ne_eq,
    not_true_eq_false, if_false, List.length_cons, List.length_nil,
    voteValues_pair _ _ _ _ _ _ hab, extendConversation, hupd]
  norm_num

theorem getConversation_awardExtension (db : Db) (u cid n x : Nat) :
    getConversation (awardExtension db u cid n) x = getConversation db x := rfl

theorem getConversation_awardFriendsForever (db : Db) (u cid x : Nat) :
    getConversation (awardFriendsForever db u cid) x = getConversation db x := rfl

/-! ### Claim theorems -/

/-- Claim C1: for every conversation in `EXTENSION_PENDING` with two
deduplicated-by-user votes, the resolution produces exactly `CLOSED`
if either vote is `leave`, `FRIENDS_FOREVER` if both votes are
`friends_forever`, and `PHOTO_EXCHANGE` with `extensions_count`
incremented by one in every other combination. -/
theorem extensionVote_resolution_table
    (db : Db) (timers : TimerSys) (pp : List (Nat × List Nat))
    (pr : List (Nat × List (Nat × Nat)))
    (conversationId : Nat) (conv : Conversation) (a b : Nat) (v1 v2 : Vote)
    (hconv : getConversation db conversationId = some conv)
    (hstatus : conv.status = Status.extension_pending)
    (hprev : votesForRound db.extension_votes conversationId (conv.extensions_count + 1) =
      [⟨conversationId, a, conv.extensions_count + 1, v1⟩])
    (hab : a ≠ b)
    (res : HandlerResult)
    (hres : res = extensionVoteHandler db timers pp pr b conversationId v2) :
    ((v1 = Vote.leave ∨ v2 = Vote.leave) →
      getConversation res.db conversationId = some { conv with status := Status.closed } ∧
      res.events = [Event.extensionResult "closed" conversationId,
        Event.conversationClosed conversationId "Someone chose to leave"]) ∧
    ((v1 = Vote.friends_forever ∧ v2 = Vote.friends_forever) →
      getConversation res.db conversationId =
        some { conv with status := Status.friends_forever, is_friends_forever := true } ∧
      res.events = [Event.extensionResult "friends_forever" conversationId,
        Event.friendsForeverConfirmed conversationId]) ∧
    (v1 ≠ Vote.leave → v2 ≠ Vote.leave →
      ¬(v1 = Vote.friends_forever ∧ v2 = Vote.friends_forever) →
      getConversation res.db conversationId =
        some { conv with status := Status.photo_exchange,
                         extensions_count := conv.extensions_count + 1 } ∧
      res.events = [Event.extensionResult "photo_exchange" conversationId,
        Event.photoExchangeStart conversationId]) := by
  subst hres
  rw [extensionVoteHandler_two_distinct db timers pp pr conversationId conv a b v1 v2
    hconv hstatus hprev hab]
  have hdb1 : getConversation
      { db with extension_votes :=
        db.extension_votes ++ [⟨conversationId, b, conv.extensions_count + 1, v2⟩] }
      conversationId = some conv := hconv
  have hclose := getConversation_update _ conversationId
    (fun c => { c with status := Status.closed }) (fun _ => rfl) conv hdb1
  have hff := getConversation_update _ conversationId
    (fun c => { c with status := Status.friends_forever, is_friends_forever := true })
    (fun _ => rfl) conv hdb1
  have hext := getConversation_update _ conversationId
    (fun c => { c with extensions_count := c.extensions_count + 1,
                       status := Status.photo_exchange })
    (fun _ => rfl) conv hdb1
  refine ⟨?_, ?_, ?_⟩
  · intro hcase
    have hcond : ([v1, v2].contains Vote.leave) = true := by
      rcases hcase with h | h <;> subst h <;> simp [List.contains]
    simp only [hcond, if_true, closeConversation]
    exact ⟨hclose, trivial⟩
  · rintro ⟨h1, h2⟩
    subst h1; subst h2
    have hcond : ([Vote.friends_forever, Vote.friends_forever].contains Vote.leave) = false := by
      decide
    have hcond2 :
        ([Vote.friends_forever, Vote.friends_forever].all (fun v => v == Vote.friends_forever)) =
          true := by
      decide
    simp only [hcond, hcond2, Bool.false_eq_true, if_false, if_true]
    refine ⟨?_, trivial⟩
    rw [getConversation_awardFriendsForever, getConversation_awardFriendsForever]
    exact hff
  · intro h1 h2 h3
    have hcond : ([v1, v2].contains Vote.leave) = false := by
      cases v1 <;> cases v2 <;> simp_all [List.contains]
    have hcond2 : ([v1, v2].all (fun v => v == Vote.friends_forever)) = false := by
      cases v1 <;> cases v2 <;> simp_all
    simp only [hcond, hcond2, Bool.false_eq_true, if_false]
    refine ⟨?_, trivial⟩
    rw [getConversation_awardExtension, getConversation_awardExtension]
    exact hext

/-- Claim C4: for every resolution of an extension round into
`PHOTO_EXCHANGE`, each participant's extension award equals the base
amount (25) plus the streak bonus (10) exactly when the post-increment
`extensions_count` reaches the streak threshold (3), and the base
amount alone otherwise; exactly one award row is written per
participant per round, so the bonus is added at most once. -/
theorem extension_award_streak_boundary
    (db : Db) (timers : TimerSys) (pp : List (Nat × List Nat))
    (pr : List (Nat × List (Nat × Nat)))
    (conversationId : Nat) (conv : Conversation) (a b : Nat) (v1 v2 : Vote)
    (hconv : getConversation db conversationId = some conv)
    (hstatus : conv.status = Status.extension_pending)
    (hprev : votesForRound db.extension_votes conversationId (conv.extensions_count + 1) =
      [⟨conversationId, a, conv.extensions_count + 1, v1⟩])
    (hab : a ≠ b)
    (h1 : v1 ≠ Vote.leave) (h2 : v2 ≠ Vote.leave)
    (h3 : ¬(v1 = Vote.friends_forever ∧ v2 = Vote.friends_forever))
    (res : HandlerResult)
    (hres : res = extensionVoteHandler db timers pp pr b conversationId v2) :
    res.events = [Event.extensionResult "photo_exchange" conversationId,
      Event.photoExchangeStart conversationId] ∧
    res.db.points_log.map (fun e => (e.user_id, e.event_type, e.points)) =
      db.points_log.map (fun e => (e.user_id, e.event_type, e.points)) ++
        [(conv.user1_id, "extension",
          if conv.extensions_count + 1 ≥ POINTS.STREAK_THRESHOLD then
            POINTS.EXTENSION + POINTS.STREAK_BONUS
          else POINTS.EXTENSION),
         (conv.user2_id, "extension",
          if conv.extensions_count + 1 ≥ POINTS.STREAK_THRESHOLD then
            POINTS.EXTENSION + POINTS.STREAK_BONUS
          else POINTS.EXTENSION)] ∧
    POINTS.EXTENSION = 25 ∧ POINTS.STREAK_BONUS = 10 ∧ POINTS.STREAK_THRESHOLD = 3 := by
  subst hres
  rw [extensionVoteHandler_two_distinct db timers pp pr conversationId conv a b v1 v2
    hconv hstatus hprev hab]
  have hcond : ([v1, v2].contains Vote.leave) = false := by
    cases v1 <;> cases v2 <;> simp_all [List.contains]
  have hcond2 : ([v1, v2].all (fun v => v == Vote.friends_forever)) = false := by
    cases v1 <;> cases v2 <;> simp_all
  simp only [hcond, hcond2, Bool.false_eq_true, if_false]
  refine ⟨trivial, ?_, rfl, rfl, rfl⟩
  simp [awardExtension, awardPoints, extendConversation, updateConversation]

/-- A store with users 1 and 2 and one conversation (id 1, room 10)
awaiting extension votes, with no votes cast yet. -/
def pendingDb : Db :=
  ⟨[⟨1, 0⟩, ⟨2, 0⟩], [⟨1, 1, 2, 10, Status.extension_pending, 0, false, none⟩], [], [], []⟩

/-- An empty timer subsystem. -/
def emptyTimers : TimerSys := ⟨[], [], 0⟩

/-- The state after participant 1 casts the first `extend` vote of
round 1 on `pendingDb`. -/
def firstVoteResult : HandlerResult :=
  extensionVoteHandler pendingDb emptyTimers [] [] 1 1 Vote.extend

/-- The state after participant 1 then submits the very same `extend`
vote a second time in the same round. -/
def doubleVoteResult : HandlerResult :=
  extensionVoteHandler firstVoteResult.db firstVoteResult.timers
    firstVoteResult.pendingPhotos firstVoteResult.pendingRatings 1 1 Vote.extend

/-- Claim C2 (code bug witnessed on the source): the handler counts
vote *rows*, not distinct users, before resolving.  User 1 votes
`extend`, is told to wait, votes `extend` again in the same round —
and the round resolves to `photo_exchange` although user 2 never
voted, the opposite of the required "waiting" acknowledgment with no
resolution. -/
theorem extensionVote_double_submit_resolves_alone :
    firstVoteResult.events = [Event.voteReceivedWaiting] ∧
    doubleVoteResult.db.extension_votes.map VoteRow.user_id = [1, 1] ∧
    doubleVoteResult.events =
      [Event.extensionResult "photo_exchange" 1, Event.photoExchangeStart 1] ∧
    getConversation doubleVoteResult.db 1 =
      some ⟨1, 1, 2, 10, Status.photo_exchange, 1, false, none⟩ :=
  ⟨rfl, rfl, rfl, rfl⟩

/-- The state after user 99 — not a participant of conversation 1 —
submits a `leave` vote while participant 1's `extend` vote is pending. -/
def outsiderVoteResult : HandlerResult :=
  extensionVoteHandler firstVoteResult.db firstVoteResult.timers [] [] 99 1 Vote.leave

/-- Claim C3 counterexample: the `EXTENSION_VOTE` handler performs no
participant check, so the vote of non-participant 99 on conversation 1
(whose participants are 1 and 2) is persisted as a row, counted toward
the round's tally, and even closes the conversation — not silently
dropped. -/
theorem extensionVote_nonparticipant_counted :
    (99 ≠ (1 : Nat) ∧ 99 ≠ (2 : Nat)) ∧
    outsiderVoteResult.db.extension_votes =
      [⟨1, 1, 1, Vote.extend⟩, ⟨1, 99, 1, Vote.leave⟩] ∧
    getConversation outsiderVoteResult.db 1 =
      some ⟨1, 1, 2, 10, Status.closed, 0, false, none⟩ ∧
    outsiderVoteResult.events =
      [Event.extensionResult "closed" 1,
       Event.conversationClosed 1 "Someone chose to leave"] :=
  ⟨by decide, rfl, rfl, rfl⟩

/-- Claim C3 (amended): the handler silently drops a vote — no row
persisted, no state change, no events — exactly when the conversation
does not exist or is not in `EXTENSION_PENDING`; for a conversation in
`EXTENSION_PENDING` the vote row is persisted and counted for any
sender, participant or not. -/
theorem extensionVote_drop_only_for_state
    (db : Db) (timers : TimerSys) (pp : List (Nat × List Nat))
    (pr : List (Nat × List (Nat × Nat))) (userId conversationId : Nat) (vote : Vote) :
    (getConversation db conversationId = none →
      extensionVoteHandler db timers pp pr userId conversationId vote =
        ⟨db, timers, pp, pr, []⟩) ∧
    (∀ conv, getConversation db conversationId = some conv →
      conv.status ≠ Status.extension_pending →
      extensionVoteHandler db timers pp pr userId conversationId vote =
        ⟨db, timers, pp, pr, []⟩) ∧
    (∀ conv, getConversation db conversationId = some conv →
      conv.status = Status.extension_pending →
      (extensionVoteHandler db timers pp pr userId conversationId vote).db.extension_votes =
        db.extension_votes ++ [⟨conversationId, userId, conv.extensions_count + 1, vote⟩]) := by
  refine ⟨?_, ?_, ?_⟩
  · intro h
    simp [extensionVoteHandler, h]
  · intro conv hconv hst
    simp only [extensionVoteHandler, hconv]
    rw [if_pos hst]
  · intro conv hconv hst
    simp only [extensionVoteHandler, hconv]
    rw [if_neg (by simp [hst])]
    split
    · rfl
    split
    · rfl
    split
    · rfl
    split
    · rename_i db2 updated heq
      have h2 : db2 = (extendConversation
          { db with extension_votes := db.extension_votes ++
            [⟨conversationId, userId, conv.extensions_count + 1, vote⟩] } conversationId).1 := by
        rw [heq]
      rw [h2]
      exact rfl
    · rename_i db2 heq
      have h2 : db2 = (extendConversation
          { db with extension_votes := db.extension_votes ++
            [⟨conversationId, userId, conv.extensions_count + 1, vote⟩] } conversationId).1 := by
        rw [heq]
      rw [h2]
      exact rfl

/-- A store like `pendingDb` but already holding participant 1's
round-1 `extend` vote. -/
def oneVoteDb : Db :=
  ⟨[⟨1, 0⟩, ⟨2, 0⟩], [⟨1, 1, 2, 10, Status.extension_pending, 0, false, none⟩],
   [⟨1, 1, 1, Vote.extend⟩], [], []⟩

theorem extensionVote_resolution_table_witness :
    getConversation (extensionVoteHandler oneVoteDb emptyTimers [] [] 2 1 Vote.extend).db 1 =
      some ⟨1, 1, 2, 10, Status.photo_exchange, 1, false, none⟩ := by
  have h := extensionVote_resolution_table oneVoteDb emptyTimers [] [] 1
    ⟨1, 1, 2, 10, Status.extension_pending, 0, false, none⟩ 1 2 Vote.extend Vote.extend
    rfl rfl rfl (by decide) _ rfl
  exact (h.2.2 (by decide) (by decide) (by decide)).1

/-- A store whose conversation has already been extended twice, with
participant 1's round-3 `extend` vote pending: the next extension is
the third, reaching the streak threshold. -/
def streakDb : Db :=
  ⟨[⟨1, 0⟩, ⟨2, 0⟩], [⟨1, 1, 2, 10, Status.extension_pending, 2, false, none⟩],
   [⟨1, 1, 3, Vote.extend⟩], [], []⟩

theorem extension_award_streak_boundary_witness :
    (extensionVoteHandler streakDb emptyTimers [] [] 2 1 Vote.extend).db.points_log.map
        (fun e => (e.user_id, e.event_type, e.points)) =
      [(1, "extension", 35), (2, "extension", 35)] := by
  have h := extension_award_streak_boundary streakDb emptyTimers [] [] 1
    ⟨1, 1, 2, 10, Status.extension_pending, 2, false, none⟩ 1 2 Vote.extend Vote.extend
    rfl rfl rfl (by decide) (by decide) (by decide) (by decide) _ rfl
  simpa using h.2.1

/-- Claim C5: a rating of score `s` submitted by participant `A` on a
conversation whose other participant is `B` credits exactly `s * 5`
points to `B` — one `rating` log row for `B` and the same amount on
`B`'s running total — and credits nothing to the rater `A`. -/
theorem ratePhoto_awards_rated_user
    (db : Db) (timers : TimerSys) (pp : List (Nat × List Nat))
    (pr : List (Nat × List (Nat × Nat))) (us : List (Nat × Nat))
    (userId conversationId score now : Nat) (conv : Conversation)
    (hconv : getConversation db conversationId = some conv)
    (hdistinct : conv.user1_id ≠ conv.user2_id)
    (hmem : userId = conv.user1_id ∨ userId = conv.user2_id)
    (hs1 : 1 ≤ score) (hs5 : score ≤ 5)
    (res : HandlerResult)
    (hres : res = ratePhotoHandler db timers pp pr us userId conversationId score now) :
    (getPartnerUserId conv userId = conv.user1_id ∨
      getPartnerUserId conv userId = conv.user2_id) ∧
    getPartnerUserId conv userId ≠ userId ∧
    res.db.points_log = db.points_log ++
      [⟨getPartnerUserId conv userId, conversationId, "rating",
        score * POINTS.RATING_MULTIPLIER, "Rated " ++ toString score ++ " stars"⟩] ∧
    score * POINTS.RATING_MULTIPLIER = score * 5 ∧
    res.db.users = db.users.map (fun u =>
      if u.id = getPartnerUserId conv userId then
        { u with total_points := u.total_points + score * 5 }
      else u) := by
  subst hres
  have hpartner : (getPartnerUserId conv userId = conv.user1_id ∨
      getPartnerUserId conv userId = conv.user2_id) ∧
      getPartnerUserId conv userId ≠ userId := by
    rcases hmem with h | h
    · subst h
      rw [getPartnerUserId, if_pos rfl]
      exact ⟨Or.inr rfl, fun hc => hdistinct hc.symm⟩
    · subst h
      rw [getPartnerUserId, if_neg hdistinct]
      exact ⟨Or.inl rfl, fun hc => hdistinct hc⟩
  refine ⟨hpartner.1, hpartner.2, ?_⟩
  simp only [ratePhotoHandler, hconv]
  split
  · simp [startTimer, setActive, updateConversation, awardRating, awardPoints,
      POINTS.RATING_MULTIPLIER]
  · simp [awardRating, awardPoints, POINTS.RATING_MULTIPLIER]

/-- Claim C10: `getPartnerUserId` is total — it returns `user2_id`
when the queried user equals `user1_id` and `user1_id` in every other
case, including a userId that is not a participant at all. -/
theorem getPartnerUserId_total (conversation : Conversation) (userId : Nat) :
    (userId = conversation.user1_id →
      getPartnerUserId conversation userId = conversation.user2_id) ∧
    (userId ≠ conversation.user1_id →
      getPartnerUserId conversation userId = conversation.user1_id) ∧
    (userId ≠ conversation.user1_id → userId ≠ conversation.user2_id →
      getPartnerUserId conversation userId = conversation.user1_id) := by
  refine ⟨?_, ?_, ?_⟩
  · intro h
    rw [getPartnerUserId, if_pos h.symm]
  · intro h
    rw [getPartnerUserId, if_neg (fun hc => h hc.symm)]
  · intro h _
    rw [getPartnerUserId, if_neg (fun hc => h hc.symm)]

theorem getPartnerUserId_total_witness :
    getPartnerUserId ⟨1, 4, 7, 10, Status.active, 0, false, none⟩ 4 = 7 ∧
    getPartnerUserId ⟨1, 4, 7, 10, Status.active, 0, false, none⟩ 7 = 4 ∧
    getPartnerUserId ⟨1, 4, 7, 10, Status.active, 0, false, none⟩ 99 = 4 :=
  ⟨(getPartnerUserId_total ⟨1, 4, 7, 10, Status.active, 0, false, none⟩ 4).1 rfl,
   (getPartnerUserId_total ⟨1, 4, 7, 10, Status.active, 0, false, none⟩ 7).2.1 (by decide),
   (getPartnerUserId_total ⟨1, 4, 7, 10, Status.active, 0, false, none⟩ 99).2.2
     (by decide) (by decide)⟩

/-! ### Matchmaking queue lemmas -/

theorem removeFromQueue_of_not_mem (queue : List QueueEntry) (userId : Nat)
    (h : ∀ e ∈ queue, e.userId ≠ userId) : removeFromQueue queue userId = queue := by
  unfold removeFromQueue
  apply List.eraseP_of_forall_not
  intro a ha
  simp [h a ha]

theorem not_mem_removeFromQueue (queue : List QueueEntry) (userId : Nat)
    (hnd : (queue.map QueueEntry.userId).Nodup) :
    userId ∉ (removeFromQueue queue userId).map QueueEntry.userId := by
  induction queue with
  | nil => simp [removeFromQueue]
  | cons e rest ih =>
    simp only [List.map_cons, List.nodup_cons] at hnd
    by_cases he : e.userId = userId
    · rw [removeFromQueue, List.eraseP_cons_of_pos (by simp [he])]
      rw [← he]
      exact hnd.1
    · rw [removeFromQueue, List.eraseP_cons_of_neg (by simp [he])]
      simp only [List.map_cons, List.mem_cons]
      rintro (hc | hc)
      · exact he hc.symm
      · exact ih hnd.2 hc

theorem nodup_removeFromQueue (queue : List QueueEntry) (userId : Nat)
    (hnd : (queue.map QueueEntry.userId).Nodup) :
    ((removeFromQueue queue userId).map QueueEntry.userId).Nodup :=
  List.Nodup.sublist ((List.eraseP_sublist queue).map QueueEntry.userId) hnd

theorem tryMatch_distinct (queue : List QueueEntry)
    (hnd : (queue.map QueueEntry.userId).Nodup) :
    ∀ p rest, tryMatch queue = (some p, rest) → p.1.userId ≠ p.2.userId := by
  intro p rest htm
  rcases queue with _ | ⟨a, _ | ⟨b, t⟩⟩
  · simp [tryMatch] at htm
  · simp [tryMatch] at htm
  · simp only [tryMatch, Prod.mk.injEq, Option.some.injEq] at htm
    rw [← htm.1]
    simp only [List.map_cons, List.nodup_cons, List.mem_cons] at hnd
    exact fun hc => hnd.1 (Or.inl hc)

theorem enqueueAll_disjoint (entries : List QueueEntry) :
    ∀ queue : List QueueEntry,
      (∀ e ∈ entries, ∀ q ∈ queue, q.userId ≠ e.userId) →
      (entries.map QueueEntry.userId).Nodup →
      enqueueAll queue entries = queue ++ entries := by
  induction entries with
  | nil => intro q _ _; simp [enqueueAll]
  | cons e rest ih =>
    intro q hdisj hnd
    simp only [List.map_cons, List.nodup_cons] at hnd
    have h1 : addToQueue q e.userId e.socketId = q ++ [e] := by
      rw [addToQueue, removeFromQueue_of_not_mem]
      intro a ha
      exact hdisj e (by simp) a ha
    have h2 : enqueueAll q (e :: rest) = enqueueAll (q ++ [e]) rest := by
      rw [enqueueAll, List.foldl_cons, h1]
      rfl
    rw [h2, ih (q ++ [e]) ?_ hnd.2, List.append_assoc]
    · rfl
    · intro x hx pq hpq
      rcases List.mem_append.mp hpq with hq | he
      · exact hdisj x (List.mem_cons_of_mem e hx) pq hq
      · have : pq = e := by simpa using he
        subst this
        intro hc
        exact hnd.1 (hc ▸ List.mem_map_of_mem QueueEntry.userId hx)

/-- Claim C6: enqueuing distinct users onto an empty queue keeps them
in arrival order, repeated `tryMatch` calls consume and return the two
longest-waiting entries each time — pairing them (U1,U2), (U3,U4), …
— and `tryMatch` returns nothing whenever fewer than two entries are
queued. -/
theorem queue_fifo_pairing (entries : List QueueEntry)
    (hnodup : (entries.map QueueEntry.userId).Nodup) :
    enqueueAll [] entries = entries ∧
    (∀ u1 u2 : QueueEntry, ∀ rest : List QueueEntry,
      tryMatch (u1 :: u2 :: rest) = (some (u1, u2), rest)) ∧
    (∀ queue : List QueueEntry, drainPairs queue =
      (match tryMatch queue with
       | (some p, rest) => p :: drainPairs rest
       | (none, _) => [])) ∧
    (∀ queue : List QueueEntry, queue.length < 2 → tryMatch queue = (none, queue)) := by
  refine ⟨?_, ?_, ?_, ?_⟩
  · simpa using enqueueAll_disjoint entries [] (by simp) hnodup
  · intro u1 u2 rest
    rfl
  · intro queue
    rcases queue with _ | ⟨a, _ | ⟨b, t⟩⟩ <;> rfl
  · intro queue hlen
    rcases queue with _ | ⟨a, _ | ⟨b, t⟩⟩
    · rfl
    · rfl
    · simp at hlen
      omega

theorem queue_fifo_pairing_witness :
    enqueueAll [] [⟨1, 11⟩, ⟨2, 12⟩, ⟨3, 13⟩, ⟨4, 14⟩] =
      [⟨1, 11⟩, ⟨2, 12⟩, ⟨3, 13⟩, ⟨4, 14⟩] ∧
    drainPairs [⟨1, 11⟩, ⟨2, 12⟩, ⟨3, 13⟩, ⟨4, 14⟩] =
      [(⟨1, 11⟩, ⟨2, 12⟩), (⟨3, 13⟩, ⟨4, 14⟩)] ∧
    tryMatch [⟨1, 11⟩] = (none, [⟨1, 11⟩]) := by
  have h := queue_fifo_pairing [⟨1, 11⟩, ⟨2, 12⟩, ⟨3, 13⟩, ⟨4, 14⟩] (by decide)
  exact ⟨h.1, by decide, h.2.2.2 [⟨1, 11⟩] (by decide)⟩

/-- Claim C7: enqueue is idempotent — re-enqueuing a user already in
the queue leaves exactly one entry for that user, the queue never
holds two entries with the same userId, and consequently `tryMatch`
can never return the same user as both members of a pair. -/
theorem enqueue_idempotent (queue : List QueueEntry) (userId socketId : Nat)
    (hnd : (queue.map QueueEntry.userId).Nodup)
    (hmem : userId ∈ queue.map QueueEntry.userId)
    (q' : List QueueEntry) (hq' : q' = addToQueue queue userId socketId) :
    (q'.map QueueEntry.userId).count userId = 1 ∧
    (q'.map QueueEntry.userId).Nodup ∧
    (∀ p rest, tryMatch q' = (some p, rest) → p.1.userId ≠ p.2.userId) := by
  subst hq'
  have hnotin := not_mem_removeFromQueue queue userId hnd
  have hnd' := nodup_removeFromQueue queue userId hnd
  have hmap : (addToQueue queue userId socketId).map QueueEntry.userId =
      (removeFromQueue queue userId).map QueueEntry.userId ++ [userId] := by
    simp [addToQueue]
  have hnodup2 : ((addToQueue queue userId socketId).map QueueEntry.userId).Nodup := by
    rw [hmap]
    refine List.Nodup.append hnd' (by simp) ?_
    intro x hx hx1
    have : x = userId := by simpa using hx1
    subst this
    exact hnotin hx
  refine ⟨?_, hnodup2, tryMatch_distinct _ hnodup2⟩
  rw [hmap, List.count_append, List.count_eq_zero.mpr hnotin]
  simp

theorem enqueue_idempotent_witness :
    ((addToQueue [⟨1, 11⟩, ⟨2, 12⟩] 1 99).map QueueEntry.userId).count 1 = 1 ∧
    ((addToQueue [⟨1, 11⟩, ⟨2, 12⟩] 1 99).map QueueEntry.userId).Nodup := by
  have h := enqueue_idempotent [⟨1, 11⟩, ⟨2, 12⟩] 1 99 (by decide) (by decide) _ rfl
  exact ⟨h.1, h.2.1⟩

/-! ### Timer and disconnect-grace claims -/

/-- Claim C8: starting a timer for a room that already has one first
passes the existing expiry and warning handles to `clearTimeout`, so
the first timer's expiry transition can never fire after the second
`start`; cancellation is permanent under both operations; and `clear`
on a room with no timer is a no-op. -/
theorem startTimer_cancels_previous (db : Db) (timers : TimerSys)
    (roomId conversationId now : Nat) (entry : TimerEntry)
    (hactive : lookupEntry timers.activeTimers roomId = some entry) :
    ¬ canFire (startTimer db timers roomId conversationId now).timers entry.timeout ∧
    ¬ canFire (startTimer db timers roomId conversationId now).timers entry.warningTimeout ∧
    (∀ t : TimerSys, ∀ r : Nat, t.cancelled ⊆ (clearTimer t r).cancelled) ∧
    (∀ d : Db, ∀ t : TimerSys, ∀ r c n : Nat,
      t.cancelled ⊆ (startTimer d t r c n).timers.cancelled) ∧
    (∀ t : TimerSys, ∀ r : Nat, lookupEntry t.activeTimers r = none →
      clearTimer t r = t) := by
  refine ⟨?_, ?_, ?_, ?_, ?_⟩
  · simp [canFire, startTimer, clearTimer, hactive]
  · simp [canFire, startTimer, clearTimer, hactive]
  · intro t r
    unfold clearTimer
    cases h : lookupEntry t.activeTimers r
    · exact fun x hx => hx
    · exact List.subset_append_left _ _
  · intro d t r c n
    unfold startTimer clearTimer
    cases h : lookupEntry t.activeTimers r
    · exact fun x hx => hx
    · exact List.subset_append_left _ _
  · intro t r h
    unfold clearTimer
    rw [h]

theorem startTimer_cancels_previous_witness :
    ¬ canFire (startTimer pendingDb ⟨[(10, ⟨5, 4⟩)], [], 6⟩ 10 1 1000).timers 5 ∧
    clearTimer ⟨[], [], 0⟩ 10 = ⟨[], [], 0⟩ := by
  have h := startTimer_cancels_previous pendingDb ⟨[(10, ⟨5, 4⟩)], [], 6⟩ 10 1 1000 ⟨5, 4⟩ rfl
  exact ⟨h.1, h.2.2.2.2 ⟨[], [], 0⟩ 10 rfl⟩

/-- A store whose only conversation is already closed. -/
def closedDb : Db :=
  ⟨[⟨1, 0⟩, ⟨2, 0⟩], [⟨1, 1, 2, 10, Status.closed, 0, false, none⟩], [], [], []⟩

/-- Claim C9: the disconnect-grace expiry callback re-fetches the
conversation and closes it only when it is not already closed; when
the conversation was closed in the interim (or no longer exists) it
changes no conversation or timer state and emits nothing — a
double-close is a no-op. -/
theorem graceExpiry_no_double_close (disconnectTimers : List (Nat × Nat)) (db : Db)
    (timers : TimerSys) (userId convId roomId : Nat) (conv : Conversation)
    (hconv : getConversation db convId = some conv)
    (res : GraceResult)
    (hres : res = graceExpiryHandler disconnectTimers db timers userId convId roomId) :
    (conv.status = Status.closed →
      res.db = db ∧ res.timers = timers ∧ res.events = []) ∧
    (conv.status ≠ Status.closed →
      getConversation res.db convId = some { conv with status := Status.closed } ∧
      res.timers = clearTimer timers roomId ∧
      res.events = [Event.partnerDisconnected convId,
        Event.conversationClosed convId "Partner disconnected"]) ∧
    (∀ d2 : List (Nat × Nat), ∀ db2 : Db, ∀ t2 : TimerSys, ∀ u2 c2 r2 : Nat,
      getConversation db2 c2 = none →
      (graceExpiryHandler d2 db2 t2 u2 c2 r2).db = db2 ∧
      (graceExpiryHandler d2 db2 t2 u2 c2 r2).events = []) := by
  subst hres
  refine ⟨?_, ?_, ?_⟩
  · intro hclosed
    simp [graceExpiryHandler, hconv, hclosed]
  · intro hopen
    have hclose := getConversation_update db convId
      (fun c => { c with status := Status.closed }) (fun _ => rfl) conv hconv
    simp only [graceExpiryHandler, hconv]
    rw [if_pos hopen]
    exact ⟨hclose, rfl, rfl⟩
  · intro d2 db2 t2 u2 c2 r2 hnone
    simp [graceExpiryHandler, hnone]

theorem graceExpiry_no_double_close_witness :
    (graceExpiryHandler [(1, 7)] closedDb emptyTimers 1 1 10).db = closedDb ∧
    (graceExpiryHandler [(1, 7)] closedDb emptyTimers 1 1 10).events = [] := by
  have h := graceExpiry_no_double_close [(1, 7)] closedDb emptyTimers 1 1 10
    ⟨1, 1, 2, 10, Status.closed, 0, false, none⟩ rfl _ rfl
  exact ⟨(h.1 rfl).1, (h.1 rfl).2.2⟩

theorem ratePhoto_awards_rated_user_witness :
    (ratePhotoHandler pendingDb emptyTimers [] [] [] 1 1 4 1000).db.points_log =
      [⟨2, 1, "rating", 20, "Rated 4 stars"⟩] := by
  have h := ratePhoto_awards_rated_user pendingDb emptyTimers [] [] [] 1 1 4 1000
    ⟨1, 1, 2, 10, Status.extension_pending, 0, false, none⟩ rfl (by decide) (Or.inl rfl)
    (by decide) (by decide) _ rfl
  exact h.2.2.1

theorem extensionVote_drop_only_for_state_witness :
    extensionVoteHandler closedDb emptyTimers [] [] 1 1 Vote.extend =
      ⟨closedDb, emptyTimers, [], [], []⟩ ∧
    (extensionVoteHandler pendingDb emptyTimers [] [] 99 1 Vote.leave).db.extension_votes =
      [⟨1, 99, 1, Vote.leave⟩] := by
  have h1 := (extensionVote_drop_only_for_state closedDb emptyTimers [] [] 1 1 Vote.extend).2.1
    ⟨1, 1, 2, 10, Status.closed, 0, false, none⟩ rfl (by decide)
  have h2 := (extensionVote_drop_only_for_state pendingDb emptyTimers [] [] 99 1 Vote.leave).2.2
    ⟨1, 1, 2, 10, Status.extension_pending, 0, false, none⟩ rfl rfl
  exact ⟨h1, h2⟩

end TraumaChat
